import Mathlib

/-
Verification of the capacity-recommender logic of the Rajagiri Hall Booking
System front-end scripts.

The recommender appears twice in the sources:
  - the room variant, in core/static/js/timetable.js: the studentCount
    input listener scans the option list of spaceSelect, disables rooms
    that are too small, tracks the best fit (smallest surplus), and either
    auto-selects the best fit or shows a no-fit diagnostic;
  - the bus variant (headcountInput listener): the same scan, plus a
    validBusFound flag and a submission gate on submitBtn, and it resets
    the suggestion banner class at the start of every run.

Numbers parsed by parseInt are modelled as Option Int: none models NaN
(non-numeric or missing attribute or input), some v a numeric parse.
JavaScript comparisons against NaN are always false; Infinity, the initial
value of smallestDifference, is modelled by none in that field.
-/

namespace HallBooking

/-- An option element of the select list: its value attribute (the empty
string marks the placeholder entry that the scan skips), its data-name
attribute, and the parse of its data-capacity attribute (none models NaN). -/
structure Candidate where
  value : String
  name : String
  capacity : Option Int
deriving Repr, DecidableEq

/-- Models the idiom parseInt(x) || 0: NaN is falsy and becomes 0; a
numeric parse v is kept (v = 0 is also falsy, but 0 || 0 is still 0). -/
def jsOrZero : Option Int → Int
  | none => 0
  | some v => v

/-- Models the JavaScript comparison capacity < requiredSeats, where the
capacity may be NaN: every comparison with NaN is false. -/
def jsLtCap : Option Int → Int → Bool
  | none, _ => false
  | some v, r => decide (v < r)

/-- Models the bus-variant comparison count > cap (false when cap is NaN);
for numeric cap it coincides with cap < count. -/
def jsGtCount (count : Int) : Option Int → Bool
  | none => false
  | some v => decide (v < count)

/-- Models diff < smallestDifference where diff may be NaN (none on the
left) and smallestDifference starts as Infinity (none on the right). -/
def jsLtDiff : Option Int → Option Int → Bool
  | none, _ => false
  | some _, none => true
  | some d, some m => decide (d < m)

/-- The two mutable loop variables of the scan: bestFitOption (initially
null) and smallestDifference (initially Infinity, modelled none). -/
structure ScanState where
  bestFitOption : Option Candidate
  smallestDifference : Option Int
deriving Repr, DecidableEq

/-- One iteration of options.forEach in the room listener, restricted to the
best-fit bookkeeping: skip the placeholder, skip rooms with
capacity < requiredSeats, otherwise compare diff = capacity - requiredSeats
against smallestDifference (strict <, so an earlier best survives a tie). -/
def stepOption (r : Int) (s : ScanState) (c : Candidate) : ScanState :=
  if c.value = "" then s
  else if jsLtCap c.capacity r then s
  else
    let diff := c.capacity.map (fun v => v - r)
    if jsLtDiff diff s.smallestDifference then
      { bestFitOption := some c, smallestDifference := diff }
    else s

/-- The forEach loop folded from an arbitrary starting state. -/
def scanFrom (r : Int) (s : ScanState) : List Candidate → ScanState
  | [] => s
  | c :: cs => scanFrom r (stepOption r s c) cs

/-- The initial loop state: bestFitOption = null, smallestDifference =
Infinity. -/
def initScan : ScanState :=
  { bestFitOption := none, smallestDifference := none }

/-- The whole forEach loop of the room listener (best-fit bookkeeping). -/
def scanOptions (r : Int) (opts : List Candidate) : ScanState :=
  scanFrom r initScan opts

/-- The result taxonomy of the specification. BestFit carries the chosen
candidate; NoFit carries the required count named by the diagnostic. -/
inductive RecommendationResult where
  | BestFit (candidate : Candidate)
  | NoFit (requiredCount : Int)
  | Empty
deriving Repr, DecidableEq

/-- The recommendation computed by the room listener: the branch on
bestFitOption after the loop, then on requiredSeats > 0. -/
def evaluate (r : Int) (opts : List Candidate) : RecommendationResult :=
  match (scanOptions r opts).bestFitOption with
  | some c => .BestFit c
  | none => if 0 < r then .NoFit r else .Empty

/-- Rendering of a numeric attribute in a template literal: NaN prints as
the string NaN, an integer prints as its decimal form. -/
def capText : Option Int → String
  | none => "NaN"
  | some v => toString v

/-- The textContent written to a disabled (too small) option. -/
def tooSmallText (c : Candidate) : String :=
  "❌ " ++ c.name ++ " (Cap: " ++ capText c.capacity ++ ") - Too Small"

/-- The textContent written to an enabled (fitting) option. -/
def fitsText (c : Candidate) : String :=
  c.name ++ " (Capacity: " ++ capText c.capacity ++ ")"

/-- The per-option DOM effect of one forEach iteration on the pair
(disabled, textContent): the placeholder is left untouched; a room with
capacity < requiredSeats is disabled and relabelled too small; any other
room (NaN capacity included) is enabled and relabelled as fitting. -/
def updateOption (r : Int) (c : Candidate) (prev : Bool × String) : Bool × String :=
  if c.value = "" then prev
  else if jsLtCap c.capacity r then (true, tooSmallText c)
  else (false, fitsText c)

/-- The recommendation banner innerHTML of the auto-select branch. -/
def bestFitHTML (c : Candidate) : String :=
  "<i class=\"bi bi-stars me-1\"></i> Auto-selected <strong>" ++ c.name ++
    "</strong> as the best fit!"

/-- The recommendation banner innerHTML of the no-fit branch; it names the
required count. -/
def noFitHTML (r : Int) : String :=
  "<i class=\"bi bi-exclamation-circle me-1\"></i> No single room can hold " ++
    toString r ++ " students."

/-- The className assigned to the banner by the no-fit branch. -/
def dangerClass : String := "form-text text-danger fw-bold mt-2"

/-- The DOM state touched by the room listener: the select value, the
banner display style, className and innerHTML, and the
(disabled, textContent) pair of each option, listed in option order. -/
structure RoomUI where
  spaceSelectValue : String
  recommendDisplay : String
  recommendClass : String
  recommendHTML : String
  optionStates : List (Bool × String)
deriving Repr, DecidableEq

/-- The whole body of the studentCount input listener: parse the input
with parseInt(value) || 0, hide the banner, run the forEach loop (option
relabelling and best-fit bookkeeping), then either auto-select the best
fit, or show the no-fit diagnostic when requiredSeats > 0, or stop. -/
def roomInputEvent (inputValue : Option Int) (opts : List Candidate)
    (ui : RoomUI) : RoomUI :=
  let requiredSeats := jsOrZero inputValue
  let ui1 : RoomUI :=
    { ui with
      recommendDisplay := "none",
      optionStates := List.zipWith (updateOption requiredSeats) opts ui.optionStates }
  match (scanOptions requiredSeats opts).bestFitOption with
  | some b =>
      { ui1 with
        spaceSelectValue := b.value,
        recommendDisplay := "block",
        recommendHTML := bestFitHTML b }
  | none =>
      if 0 < requiredSeats then
        { ui1 with
          spaceSelectValue := "",
          recommendDisplay := "block",
          recommendClass := dangerClass,
          recommendHTML := noFitHTML requiredSeats }
      else ui1

/-- A sequence of input events against a fixed option list, applied in
order to the DOM state. -/
def roomEvents (opts : List Candidate) (l : List (Option Int)) (ui : RoomUI) : RoomUI :=
  l.foldl (fun u inp => roomInputEvent inp opts u) ui

/-- classList.add: appends the class token when it is not already present. -/
def classListAdd (cs : List String) (c : String) : List String :=
  if c ∈ cs then cs else cs ++ [c]

/-- classList.remove: drops every occurrence of the class token. -/
def classListRemove (cs : List String) (c : String) : List String :=
  cs.filter (fun x => x ≠ c)

/-- The loop variables of the bus-variant scan: validBusFound (set in the
enabled branch, NaN capacities included), bestFit (initially null) and
minWaste (initially Infinity, modelled none). -/
structure BusScanState where
  validBusFound : Bool
  bestFit : Option Candidate
  minWaste : Option Int
deriving Repr, DecidableEq

/-- One iteration of options.forEach in the bus listener (best-fit and
validBusFound bookkeeping): skip the placeholder; when count > cap the bus
is too small; otherwise set validBusFound and compare
waste = cap - count against minWaste with strict <. -/
def busStep (count : Int) (s : BusScanState) (c : Candidate) : BusScanState :=
  if c.value = "" then s
  else if jsGtCount count c.capacity then s
  else
    let s1 := { s with validBusFound := true }
    let waste := c.capacity.map (fun v => v - count)
    if jsLtDiff waste s1.minWaste then
      { s1 with bestFit := some c, minWaste := waste }
    else s1

/-- The bus forEach loop folded from an arbitrary starting state. -/
def busScanFrom (count : Int) (s : BusScanState) : List Candidate → BusScanState
  | [] => s
  | c :: cs => busScanFrom count (busStep count s c) cs

/-- The whole bus forEach loop from the initial state
(validBusFound = false, bestFit = null, minWaste = Infinity). -/
def busScan (count : Int) (opts : List Candidate) : BusScanState :=
  busScanFrom count { validBusFound := false, bestFit := none, minWaste := none } opts

/-- The recommendation taxonomy applied to the bus listener: the branch
count > 0 && !validBusFound gives NoFit, otherwise a non-null bestFit gives
BestFit, otherwise nothing happens (Empty). -/
def busEvaluate (count : Int) (opts : List Candidate) : RecommendationResult :=
  let s := busScan count opts
  if 0 < count ∧ s.validBusFound = false then .NoFit count
  else
    match s.bestFit with
    | some b => .BestFit b
    | none => .Empty

/-- The suggestion banner innerHTML of the bus no-fit branch; it names the
head count. -/
def busNoFitHTML (count : Int) : String :=
  "<i class=\"bi bi-x-circle-fill\"></i> No single vehicle can hold " ++
    toString count ++ " people. Please contact Transport Officer directly."

/-- The suggestion banner innerHTML of the bus auto-select branch. -/
def busBestFitHTML (c : Candidate) (count : Int) : String :=
  "<i class=\"bi bi-stars\"></i> Auto-selected <strong>" ++ c.name ++
    "</strong> for " ++ toString count ++ " passengers."

/-- The className the bus listener assigns to the banner at the start of
every run, before the branch-specific classList.add. -/
def busResetClasses : List String := ["form-text", "fw-bold", "mt-2"]

/-- The per-option DOM effect of one bus forEach iteration: the guard is
count > cap (jsGtCount), and the labels use the same templates as the room
variant. -/
def busUpdateOption (count : Int) (c : Candidate) (prev : Bool × String) : Bool × String :=
  if c.value = "" then prev
  else if jsGtCount count c.capacity then (true, tooSmallText c)
  else (false, fitsText c)

/-- The DOM state touched by the bus listener: the select value, the
suggestion banner display, class list and innerHTML, the submit button
disabled flag, label and class list, and the per-option states. -/
structure BusUI where
  busSelectValue : String
  suggestionDisplay : String
  suggestionClasses : List String
  suggestionHTML : String
  submitDisabled : Bool
  submitText : String
  submitClasses : List String
  optionStates : List (Bool × String)
deriving Repr, DecidableEq

/-- The whole body of the headcountInput input listener: parse the input
with parseInt(value) || 0, hide the banner and reset its className, run
the forEach loop (relabelling and bookkeeping; the option labels are the
same templates as the room variant), then either block submission when
count > 0 and no valid bus was found, or auto-select the best fit and
re-enable submission, or stop. -/
def busInputEvent (inputValue : Option Int) (opts : List Candidate)
    (ui : BusUI) : BusUI :=
  let count := jsOrZero inputValue
  let s := busScan count opts
  let ui1 : BusUI :=
    { ui with
      suggestionDisplay := "none",
      suggestionClasses := busResetClasses,
      optionStates := List.zipWith (busUpdateOption count) opts ui.optionStates }
  if 0 < count ∧ s.validBusFound = false then
    { ui1 with
      busSelectValue := "",
      submitDisabled := true,
      submitText := "Cannot Book: Too many passengers",
      submitClasses := classListRemove (classListAdd ui1.submitClasses "btn-secondary") "btn-google",
      suggestionDisplay := "block",
      suggestionClasses := classListAdd ui1.suggestionClasses "text-danger",
      suggestionHTML := busNoFitHTML count }
  else
    match s.bestFit with
    | some b =>
        { ui1 with
          busSelectValue := b.value,
          submitDisabled := false,
          submitText := "Submit Request",
          submitClasses := classListAdd (classListRemove ui1.submitClasses "btn-secondary") "btn-google",
          suggestionDisplay := "block",
          suggestionClasses := classListAdd ui1.suggestionClasses "text-success",
          suggestionHTML := busBestFitHTML b count }
    | none => ui1

/-- A concrete room option used to instantiate theorems on closed inputs
(the A room of the worked example in the specification). -/
def roomA : Candidate := ⟨"1", "A", some 30⟩

/-- A concrete room option (the B room of the worked example). -/
def roomB : Candidate := ⟨"2", "B", some 50⟩

/-- A concrete room option (the C room of the worked example). -/
def roomC : Candidate := ⟨"3", "C", some 45⟩

/-- A concrete option whose data-capacity attribute does not parse
(parseInt gives NaN). -/
def nanRoom : Candidate := ⟨"4", "X", none⟩

/-- A concrete initial DOM state for the room listener. -/
def uiR0 : RoomUI :=
  { spaceSelectValue := ""
    recommendDisplay := "none"
    recommendClass := "form-text"
    recommendHTML := ""
    optionStates := [(false, "A (Capacity: 30)"), (false, "B (Capacity: 50)")] }

/-- A concrete initial DOM state for the bus listener, with the submit
button enabled as the page loads it. -/
def busUI0 : BusUI :=
  { busSelectValue := ""
    suggestionDisplay := "none"
    suggestionClasses := ["form-text", "fw-bold", "mt-2"]
    suggestionHTML := ""
    submitDisabled := false
    submitText := "Submit Request"
    submitClasses := ["btn-google"]
    optionStates := [] }

/-- A candidate the best-fit bookkeeping can pick up: a non-placeholder
option whose capacity parsed to a number at least the required count. -/
def Track (r : Int) (c : Candidate) : Bool :=
  decide (c.value ≠ "") &&
    (match c.capacity with
     | some v => decide (r ≤ v)
     | none => false)

theorem track_iff (r : Int) (c : Candidate) :
    Track r c = true ↔ c.value ≠ "" ∧ ∃ v, c.capacity = some v ∧ r ≤ v := by
  unfold Track
  cases hc : c.capacity <;> simp [hc]

theorem stepOption_not_track {r : Int} {c : Candidate} (h : Track r c = false)
    (s : ScanState) : stepOption r s c = s := by
  by_cases hv : c.value = ""
  · simp [stepOption, hv]
  · cases hc : c.capacity with
    | none => simp [stepOption, hv, hc, jsLtCap, jsLtDiff]
    | some v =>
        have hle : ¬ r ≤ v := by simpa [Track, hv, hc] using h
        have hvr : v < r := not_le.mp hle
        simp [stepOption, hv, hc, jsLtCap, hvr]

theorem stepOption_track {r : Int} {c : Candidate} {v : Int} (hv : c.value ≠ "")
    (hc : c.capacity = some v) (hr : r ≤ v) (s : ScanState) :
    stepOption r s c =
      if jsLtDiff (some (v - r)) s.smallestDifference then
        { bestFitOption := some c, smallestDifference := some (v - r) }
      else s := by
  have hnlt : ¬ v < r := not_lt.mpr hr
  simp [stepOption, hv, hc, jsLtCap, hnlt]

theorem scanFrom_append (r : Int) (s : ScanState) (l1 l2 : List Candidate) :
    scanFrom r s (l1 ++ l2) = scanFrom r (scanFrom r s l1) l2 := by
  induction l1 generalizing s with
  | nil => rfl
  | cons c cs ih =>
      simp only [List.cons_append, scanFrom]
      exact ih _

theorem scanOptions_snoc (r : Int) (l : List Candidate) (c : Candidate) :
    scanOptions r (l ++ [c]) = stepOption r (scanOptions r l) c := by
  unfold scanOptions
  rw [scanFrom_append]
  rfl

/-- Main invariant of the forEach loop: after scanning the whole option
list, either nothing was trackable and both loop variables are still at
their initial values, or the list splits around the winner b, whose
surplus is strictly below the surplus of every eligible candidate listed
before it and at most the surplus of every eligible candidate after it. -/
theorem scan_inv (r : Int) (l : List Candidate) :
    ((scanOptions r l).bestFitOption = none ∧
      (scanOptions r l).smallestDifference = none ∧
      ∀ c ∈ l, Track r c = false)
    ∨ (∃ l1 b l2 v, l = l1 ++ b :: l2 ∧
        (scanOptions r l).bestFitOption = some b ∧
        (scanOptions r l).smallestDifference = some (v - r) ∧
        b.value ≠ "" ∧ b.capacity = some v ∧ r ≤ v ∧
        (∀ c ∈ l1, ∀ w, c.value ≠ "" → c.capacity = some w → r ≤ w → v - r < w - r) ∧
        (∀ c ∈ l2, ∀ w, c.value ≠ "" → c.capacity = some w → r ≤ w → v - r ≤ w - r)) := by
  induction l using List.reverseRecOn with
  | nil => exact Or.inl ⟨rfl, rfl, by simp⟩
  | append_singleton l c ih =>
      rw [scanOptions_snoc]
      rcases ih with ⟨h1, h2, h3⟩ | ⟨l1, b, l2, v, hsplit, hb, hm, hbv, hbc, hbr, hl1, hl2⟩
      · cases ht : Track r c with
        | false =>
            rw [stepOption_not_track ht]
            refine Or.inl ⟨h1, h2, ?_⟩
            intro c' hc'
            rcases List.mem_append.mp hc' with h | h
            · exact h3 c' h
            · rw [List.mem_singleton.mp h]; exact ht
        | true =>
            rcases (track_iff r c).mp ht with ⟨hv, w, hc, hr⟩
            have hstep : stepOption r (scanOptions r l) c =
                { bestFitOption := some c, smallestDifference := some (w - r) } := by
              rw [stepOption_track hv hc hr, h2, if_pos]
              rfl
            rw [hstep]
            refine Or.inr ⟨l, c, [], w, by simp, rfl, rfl, hv, hc, hr, ?_, by simp⟩
            intro c' hc' u hv' hcap hr'
            exact absurd ((track_iff r c').mpr ⟨hv', u, hcap, hr'⟩) (by simp [h3 c' hc'])
      · cases ht : Track r c with
        | false =>
            rw [stepOption_not_track ht]
            refine Or.inr ⟨l1, b, l2 ++ [c], v, by rw [hsplit]; simp, hb, hm, hbv, hbc, hbr, hl1, ?_⟩
            intro c' hc' u hv' hcap hr'
            rcases List.mem_append.mp hc' with h | h
            · exact hl2 c' h u hv' hcap hr'
            · exfalso
              have hcc := List.mem_singleton.mp h
              subst hcc
              exact absurd ((track_iff r c').mpr ⟨hv', u, hcap, hr'⟩) (by simp [ht])
        | true =>
            rcases (track_iff r c).mp ht with ⟨hv, w, hc, hr⟩
            rw [stepOption_track hv hc hr, hm]
            by_cases hlt : w - r < v - r
            · rw [if_pos (by simpa [jsLtDiff] using hlt)]
              refine Or.inr ⟨l1 ++ b :: l2, c, [], w, by rw [hsplit], rfl, rfl, hv, hc, hr, ?_, by simp⟩
              intro c' hc' u hv' hcap hr'
              rcases List.mem_append.mp hc' with h | h
              · exact lt_trans hlt (hl1 c' h u hv' hcap hr')
              · rcases List.mem_cons.mp h with h' | h'
                · subst h'
                  have huv : u = v := by
                    rw [hbc] at hcap
                    exact (Option.some.inj hcap).symm
                  rw [huv]
                  exact hlt
                · exact lt_of_lt_of_le hlt (hl2 c' h' u hv' hcap hr')
            · rw [if_neg (by simpa [jsLtDiff] using hlt)]
              refine Or.inr ⟨l1, b, l2 ++ [c], v, by rw [hsplit]; simp, hb, hm, hbv, hbc, hbr, hl1, ?_⟩
              intro c' hc' u hv' hcap hr'
              rcases List.mem_append.mp hc' with h | h
              · exact hl2 c' h u hv' hcap hr'
              · have hcc := List.mem_singleton.mp h
                subst hcc
                have huw : u = w := by
                  rw [hc] at hcap
                  exact (Option.some.inj hcap).symm
                rw [huw]
                exact not_lt.mp hlt

theorem scanFrom_not_track (r : Int) (l : List Candidate) (s : ScanState)
    (h : ∀ c ∈ l, Track r c = false) : scanFrom r s l = s := by
  induction l generalizing s with
  | nil => rfl
  | cons c cs ih =>
      show scanFrom r (stepOption r s c) cs = s
      rw [stepOption_not_track (h c (by simp))]
      exact ih s fun c' hc' => h c' (by simp [hc'])

/-- Normal form of the room listener body: its effect is determined by the
scan outcome and the parsed count. -/
theorem roomInputEvent_eq (inp : Option Int) (opts : List Candidate) (ui : RoomUI) :
    roomInputEvent inp opts ui =
      match (scanOptions (jsOrZero inp) opts).bestFitOption with
      | some b =>
          { spaceSelectValue := b.value
            recommendDisplay := "block"
            recommendClass := ui.recommendClass
            recommendHTML := bestFitHTML b
            optionStates := List.zipWith (updateOption (jsOrZero inp)) opts ui.optionStates }
      | none =>
          if 0 < jsOrZero inp then
            { spaceSelectValue := ""
              recommendDisplay := "block"
              recommendClass := dangerClass
              recommendHTML := noFitHTML (jsOrZero inp)
              optionStates := List.zipWith (updateOption (jsOrZero inp)) opts ui.optionStates }
          else
            { ui with
              recommendDisplay := "none"
              optionStates := List.zipWith (updateOption (jsOrZero inp)) opts ui.optionStates } := by
  simp only [roomInputEvent]

/-- The common core of the two best-fit claims: as soon as one trackable
candidate exists, the evaluation returns a BestFit whose surplus is a
global minimum over the eligible candidates, and every eligible candidate
listed before the winner has a strictly larger surplus. -/
theorem bestFit_spec (r : Int) (opts : List Candidate)
    (hex : ∃ c ∈ opts, Track r c = true) :
    ∃ l1 b l2 v, opts = l1 ++ b :: l2 ∧
      evaluate r opts = .BestFit b ∧
      b.value ≠ "" ∧ b.capacity = some v ∧ r ≤ v ∧
      (∀ c ∈ opts, ∀ w, c.value ≠ "" → c.capacity = some w → r ≤ w → v - r ≤ w - r) ∧
      (∀ c ∈ l1, ∀ w, c.value ≠ "" → c.capacity = some w → r ≤ w → v - r < w - r) := by
  rcases scan_inv r opts with ⟨h1, h2, h3⟩ | ⟨l1, b, l2, v, hsplit, hb, hm, hbv, hbc, hbr, hl1, hl2⟩
  · rcases hex with ⟨c, hc, ht⟩
    rw [h3 c hc] at ht
    exact absurd ht (by simp)
  · refine ⟨l1, b, l2, v, hsplit, ?_, hbv, hbc, hbr, ?_, hl1⟩
    · unfold evaluate
      rw [hb]
    · intro c hc w hv hcap hr
      rw [hsplit] at hc
      rcases List.mem_append.mp hc with h | h
      · exact le_of_lt (hl1 c h w hv hcap hr)
      · rcases List.mem_cons.mp h with h' | h'
        · subst h'
          rw [hbc] at hcap
          rw [(Option.some.inj hcap).symm]
        · exact hl2 c h' w hv hcap hr

theorem updateOption_idem (r : Int) (c : Candidate) (p : Bool × String) :
    updateOption r c (updateOption r c p) = updateOption r c p := by
  by_cases hv : c.value = ""
  · simp [updateOption, hv]
  · by_cases hlt : jsLtCap c.capacity r = true <;> simp [updateOption, hv, hlt]

theorem zipWith_updateOption_idem (r : Int) (opts : List Candidate)
    (l : List (Bool × String)) :
    List.zipWith (updateOption r) opts (List.zipWith (updateOption r) opts l) =
      List.zipWith (updateOption r) opts l := by
  induction opts generalizing l with
  | nil => rfl
  | cons c cs ih =>
      cases l with
      | nil => rfl
      | cons p ps =>
          simp only [List.zipWith]
          rw [updateOption_idem, ih]

/-- The banner className after one room event: the no-fit branch writes
the danger class, every other path leaves the className alone. -/
theorem roomClass_eq (inp : Option Int) (opts : List Candidate) (ui : RoomUI) :
    (roomInputEvent inp opts ui).recommendClass =
      (match evaluate (jsOrZero inp) opts with
       | .NoFit _ => dangerClass
       | _ => ui.recommendClass) := by
  rw [roomInputEvent_eq]
  unfold evaluate
  cases (scanOptions (jsOrZero inp) opts).bestFitOption with
  | some b => rfl
  | none => by_cases h0 : 0 < jsOrZero inp <;> simp [h0]

theorem roomClass_danger_stable (inp : Option Int) (opts : List Candidate) (ui : RoomUI)
    (h : ui.recommendClass = dangerClass) :
    (roomInputEvent inp opts ui).recommendClass = dangerClass := by
  rw [roomClass_eq]
  cases evaluate (jsOrZero inp) opts <;> simp [h]

theorem roomEvents_danger_stable (opts : List Candidate) (l : List (Option Int))
    (ui : RoomUI) (h : ui.recommendClass = dangerClass) :
    (roomEvents opts l ui).recommendClass = dangerClass := by
  induction l generalizing ui with
  | nil => exact h
  | cons inp rest ih =>
      exact ih (roomInputEvent inp opts ui) (roomClass_danger_stable inp opts ui h)

theorem roomEvents_append (opts : List Candidate) (l1 l2 : List (Option Int)) (ui : RoomUI) :
    roomEvents opts (l1 ++ l2) ui = roomEvents opts l2 (roomEvents opts l1 ui) := by
  unfold roomEvents
  exact List.foldl_append _ _ l1 l2

/-- The suggestion banner class list after one bus event, showing that the
className reset at the start of the run erases any previous classes. -/
theorem busClasses_eq (inp : Option Int) (opts : List Candidate) (ui : BusUI) :
    (busInputEvent inp opts ui).suggestionClasses =
      (if 0 < jsOrZero inp ∧ (busScan (jsOrZero inp) opts).validBusFound = false then
        classListAdd busResetClasses "text-danger"
      else
        match (busScan (jsOrZero inp) opts).bestFit with
        | some _ => classListAdd busResetClasses "text-success"
        | none => busResetClasses) := by
  unfold busInputEvent
  by_cases hg : 0 < jsOrZero inp ∧ (busScan (jsOrZero inp) opts).validBusFound = false
  · simp [hg]
  · simp only [if_neg hg]
    cases (busScan (jsOrZero inp) opts).bestFit <;> rfl

/-- Claim C1: for every required count greater than zero and every option
list containing at least one non-placeholder candidate whose numeric
capacity is at least the required count, evaluate returns BestFit for a
candidate whose surplus (capacity minus required count) is minimal among
all eligible candidates, and every eligible candidate listed before the
winner has strictly larger surplus, so the earliest-listed candidate wins
ties (the running minimum uses strict comparison). -/
theorem claim_C1_best_fit_minimal_earliest (r : Int) (opts : List Candidate)
    (hpos : 0 < r) (hex : ∃ c ∈ opts, Track r c = true) :
    ∃ l1 b l2 v, opts = l1 ++ b :: l2 ∧
      evaluate r opts = .BestFit b ∧
      b.value ≠ "" ∧ b.capacity = some v ∧ r ≤ v ∧
      (∀ c ∈ opts, ∀ w, c.value ≠ "" → c.capacity = some w → r ≤ w → v - r ≤ w - r) ∧
      (∀ c ∈ l1, ∀ w, c.value ≠ "" → c.capacity = some w → r ≤ w → v - r < w - r) :=
  bestFit_spec r opts hex

/-- Witness for claim C1 at the worked example of the specification:
required count 40 over rooms A(30), B(50), C(45). -/
theorem claim_C1_witness :
    ((0 : Int) < 40 ∧ ∃ c ∈ [roomA, roomB, roomC], Track 40 c = true) ∧
    (∃ l1 b l2 v, [roomA, roomB, roomC] = l1 ++ b :: l2 ∧
      evaluate 40 [roomA, roomB, roomC] = .BestFit b ∧
      b.value ≠ "" ∧ b.capacity = some v ∧ (40 : Int) ≤ v ∧
      (∀ c ∈ [roomA, roomB, roomC], ∀ w, c.value ≠ "" → c.capacity = some w →
        (40 : Int) ≤ w → v - 40 ≤ w - 40) ∧
      (∀ c ∈ l1, ∀ w, c.value ≠ "" → c.capacity = some w →
        (40 : Int) ≤ w → v - 40 < w - 40)) :=
  ⟨⟨by decide, by decide⟩,
    claim_C1_best_fit_minimal_earliest 40 [roomA, roomB, roomC] (by decide) (by decide)⟩

/-- Claim C3: when the required count is positive and every candidate
capacity parses below it (also for the empty option list), evaluate
returns NoFit carrying the required count, and the listener clears the
active selection and shows the blocking diagnostic that names the count. -/
theorem claim_C3_nofit_diagnostic (r : Int) (opts : List Candidate) (ui : RoomUI)
    (hpos : 0 < r) (hsmall : ∀ c ∈ opts, jsLtCap c.capacity r = true) :
    evaluate r opts = .NoFit r ∧
    (roomInputEvent (some r) opts ui).spaceSelectValue = "" ∧
    (roomInputEvent (some r) opts ui).recommendDisplay = "block" ∧
    (roomInputEvent (some r) opts ui).recommendHTML = noFitHTML r := by
  have hbest : (scanOptions r opts).bestFitOption = none := by
    rcases scan_inv r opts with ⟨h1, _, _⟩ | ⟨l1, b, l2, v, hsplit, hb, hm, hbv, hbc, hbr, _, _⟩
    · exact h1
    · exfalso
      have hbmem : b ∈ opts := by rw [hsplit]; simp
      have hlt := hsmall b hbmem
      rw [hbc] at hlt
      have hvr : v < r := by simpa [jsLtCap] using hlt
      exact absurd hbr (not_le.mpr hvr)
  have hui : roomInputEvent (some r) opts ui =
      { spaceSelectValue := ""
        recommendDisplay := "block"
        recommendClass := dangerClass
        recommendHTML := noFitHTML r
        optionStates := List.zipWith (updateOption r) opts ui.optionStates } := by
    rw [roomInputEvent_eq]
    simp only [jsOrZero]
    rw [hbest]
    simp [hpos]
  exact ⟨by unfold evaluate; rw [hbest, if_pos hpos], by rw [hui], by rw [hui], by rw [hui]⟩

/-- Witness for claim C3: required count 40 against the single room A(30). -/
theorem claim_C3_witness :
    ((0 : Int) < 40 ∧ ∀ c ∈ [roomA], jsLtCap c.capacity 40 = true) ∧
    (evaluate 40 [roomA] = .NoFit 40 ∧
      (roomInputEvent (some 40) [roomA] uiR0).spaceSelectValue = "" ∧
      (roomInputEvent (some 40) [roomA] uiR0).recommendDisplay = "block" ∧
      (roomInputEvent (some 40) [roomA] uiR0).recommendHTML = noFitHTML 40) :=
  ⟨⟨by decide, by decide⟩, claim_C3_nofit_diagnostic 40 [roomA] uiR0 (by decide) (by decide)⟩

/-- Claim C4: on every evaluation the options are partitioned exactly:
a non-placeholder candidate with numeric capacity is disabled with the
too-small label (name and capacity) exactly when its capacity is below
the required count, and enabled with the name-and-capacity label exactly
when its capacity is at least the required count; the listener applies
this per-option update across the whole option list. -/
theorem claim_C4_partition (r : Int) (c : Candidate) (prev : Bool × String) (v : Int)
    (hv : c.value ≠ "") (hc : c.capacity = some v) :
    ((updateOption r c prev = (true, tooSmallText c) ↔ v < r) ∧
     (updateOption r c prev = (false, fitsText c) ↔ r ≤ v)) ∧
    ∀ inp opts ui, (roomInputEvent inp opts ui).optionStates =
      List.zipWith (updateOption (jsOrZero inp)) opts ui.optionStates := by
  constructor
  · by_cases hlt : v < r
    · have hb : jsLtCap c.capacity r = true := by simp [jsLtCap, hc, hlt]
      refine ⟨by simp [updateOption, hv, hb, hlt], ?_⟩
      simp [updateOption, hv, hb]
      omega
    · have hb : jsLtCap c.capacity r = false := by simp [jsLtCap, hc, hlt]
      refine ⟨by simp [updateOption, hv, hb, hlt], ?_⟩
      simp [updateOption, hv, hb]
      omega
  · intro inp opts ui
    rw [roomInputEvent_eq]
    cases (scanOptions (jsOrZero inp) opts).bestFitOption with
    | some b => rfl
    | none => by_cases h0 : 0 < jsOrZero inp <;> simp [h0]

/-- Witness for claim C4: room A(30) against required count 40. -/
theorem claim_C4_witness :
    (roomA.value ≠ "" ∧ roomA.capacity = some 30) ∧
    (((updateOption 40 roomA (false, "p") = (true, tooSmallText roomA) ↔ (30 : Int) < 40) ∧
      (updateOption 40 roomA (false, "p") = (false, fitsText roomA) ↔ (40 : Int) ≤ 30)) ∧
     ∀ inp opts ui, (roomInputEvent inp opts ui).optionStates =
       List.zipWith (updateOption (jsOrZero inp)) opts ui.optionStates) :=
  ⟨⟨by decide, rfl⟩, claim_C4_partition 40 roomA (false, "p") 30 (by decide) rfl⟩

/-- Claim C9: a non-placeholder candidate whose capacity attribute does
not parse (NaN) is never disabled — it is relabelled with the eligible
label — yet it can never be the BestFit candidate, because both NaN
comparisons of the loop are false. -/
theorem claim_C9_nan_never_best (r : Int) (c : Candidate) (prev : Bool × String)
    (opts : List Candidate) (hc : c.capacity = none) (hv : c.value ≠ "") :
    updateOption r c prev = (false, fitsText c) ∧ evaluate r opts ≠ .BestFit c := by
  constructor
  · simp [updateOption, hv, hc, jsLtCap]
  · intro habs
    unfold evaluate at habs
    rcases scan_inv r opts with ⟨h1, _, _⟩ | ⟨l1, b, l2, v, hsplit, hb, hm, hbv, hbc, hbr, _, _⟩
    · rw [h1] at habs
      by_cases h0 : 0 < r <;> simp [h0] at habs
    · rw [hb] at habs
      have hbceq : b = c := by simpa using habs
      rw [hbceq, hc] at hbc
      exact Option.noConfusion hbc

/-- Witness for claim C9: the NaN-capacity option X at required count 5. -/
theorem claim_C9_witness :
    (nanRoom.capacity = none ∧ nanRoom.value ≠ "") ∧
    (updateOption 5 nanRoom (true, "old") = (false, fitsText nanRoom) ∧
      evaluate 5 [nanRoom] ≠ .BestFit nanRoom) :=
  ⟨⟨rfl, by decide⟩, claim_C9_nan_never_best 5 nanRoom (true, "old") [nanRoom] rfl (by decide)⟩

/-- Counterexample to claim C2 as stated: at required count 0 with the
single room A(30), the evaluation returns BestFit A, the recommendation
banner is shown and A is auto-selected — not the Empty outcome (no banner,
no auto-selection) the claim demands for every candidate sequence. -/
theorem claim_C2_counterexample :
    evaluate 0 [roomA] = .BestFit roomA ∧
    evaluate 0 [roomA] ≠ .Empty ∧
    (roomInputEvent (some 0) [roomA] uiR0).recommendDisplay = "block" ∧
    (roomInputEvent (some 0) [roomA] uiR0).spaceSelectValue = "1" := by decide

/-- Claim C2 (amended): when the required count is 0, no candidate with a
non-negative numeric capacity is disabled; but the result is Empty (no
banner) only when no non-placeholder candidate has a numeric capacity —
when one does, the evaluation still returns BestFit and the listener
shows the recommendation banner. -/
theorem claim_C2_zero_count (opts : List Candidate) (ui : RoomUI)
    (hnn : ∀ c ∈ opts, ∀ v, c.capacity = some v → 0 ≤ v) :
    (∀ c ∈ opts, ∀ prev, c.value ≠ "" → updateOption 0 c prev = (false, fitsText c)) ∧
    (evaluate 0 opts = .Empty ↔ ∀ c ∈ opts, c.value ≠ "" → c.capacity = none) ∧
    ((∃ c ∈ opts, c.value ≠ "" ∧ c.capacity ≠ none) →
      (∃ b, evaluate 0 opts = .BestFit b) ∧
      (roomInputEvent (some 0) opts ui).recommendDisplay = "block") := by
  have htrack : ∀ c ∈ opts, c.value ≠ "" → c.capacity ≠ none → Track 0 c = true := by
    intro c hc hv hcap
    cases hcc : c.capacity with
    | none => exact absurd hcc hcap
    | some v => exact (track_iff 0 c).mpr ⟨hv, v, hcc, hnn c hc v hcc⟩
  have hbestOf : ∀ c ∈ opts, c.value ≠ "" → c.capacity ≠ none →
      ∃ b, (scanOptions 0 opts).bestFitOption = some b ∧ evaluate 0 opts = .BestFit b := by
    intro c hc hv hcap
    rcases bestFit_spec 0 opts ⟨c, hc, htrack c hc hv hcap⟩ with ⟨l1, b, l2, v, _, heval, _⟩
    refine ⟨b, ?_, heval⟩
    unfold evaluate at heval
    cases hbb : (scanOptions 0 opts).bestFitOption with
    | none =>
        rw [hbb] at heval
        by_cases h0 : (0 : Int) < 0 <;> simp [h0] at heval
    | some b' =>
        rw [hbb] at heval
        have hb' : b' = b := by simpa using heval
        rw [hb']
  refine ⟨?_, ⟨?_, ?_⟩, ?_⟩
  · intro c hc prev hv
    cases hcap : c.capacity with
    | none => simp [updateOption, hv, hcap, jsLtCap]
    | some v =>
        have h0 : ¬ v < 0 := not_lt.mpr (hnn c hc v hcap)
        simp [updateOption, hv, hcap, jsLtCap, h0]
  · intro hemp c hc hv
    by_contra hcap
    rcases hbestOf c hc hv hcap with ⟨b, _, heval⟩
    rw [heval] at hemp
    exact RecommendationResult.noConfusion hemp
  · intro hall
    have hnone : ∀ c ∈ opts, Track 0 c = false := by
      intro c hc
      by_cases hv : c.value = ""
      · simp [Track, hv]
      · simp [Track, hall c hc hv]
    have hscan : scanOptions 0 opts = initScan := scanFrom_not_track 0 opts initScan hnone
    unfold evaluate
    rw [hscan]
    rfl
  · rintro ⟨c, hc, hv, hcap⟩
    rcases hbestOf c hc hv hcap with ⟨b, hb, heval⟩
    refine ⟨⟨b, heval⟩, ?_⟩
    rw [roomInputEvent_eq]
    simp only [jsOrZero]
    rw [hb]

/-- Witness for claim C2 (amended) at the single room A(30). -/
theorem claim_C2_witness :
    (∀ c ∈ [roomA], ∀ v, c.capacity = some v → (0 : Int) ≤ v) ∧
    ((∀ c ∈ [roomA], ∀ prev, c.value ≠ "" → updateOption 0 c prev = (false, fitsText c)) ∧
     (evaluate 0 [roomA] = .Empty ↔ ∀ c ∈ [roomA], c.value ≠ "" → c.capacity = none) ∧
     ((∃ c ∈ [roomA], c.value ≠ "" ∧ c.capacity ≠ none) →
       (∃ b, evaluate 0 [roomA] = .BestFit b) ∧
       (roomInputEvent (some 0) [roomA] uiR0).recommendDisplay = "block")) := by
  have hnn : ∀ c ∈ [roomA], ∀ v, c.capacity = some v → (0 : Int) ≤ v := by
    intro c hc v hv
    rw [List.mem_singleton.mp hc] at hv
    simp [roomA] at hv
    omega
  exact ⟨hnn, claim_C2_zero_count [roomA] uiR0 hnn⟩

/-- Counterexample to claim C6 as stated: a NaN parse is treated as count
0, but with room B(50) present the evaluation does not proceed to the
Empty outcome — it returns BestFit B and shows the banner. -/
theorem claim_C6_counterexample :
    jsOrZero none = 0 ∧
    evaluate (jsOrZero none) [roomB] = .BestFit roomB ∧
    evaluate (jsOrZero none) [roomB] ≠ .Empty ∧
    (roomInputEvent none [roomB] uiR0).recommendDisplay = "block" := by decide

/-- Claim C6 (amended): a non-numeric or missing requirement input (a NaN
parse) is treated as required count 0 and never fails: both listeners
behave as the total function they compute at input 0 — which returns
BestFit rather than Empty whenever a numeric-capacity candidate exists. -/
theorem claim_C6_nan_input_as_zero (opts : List Candidate) (ui : RoomUI) (bui : BusUI) :
    jsOrZero none = 0 ∧
    roomInputEvent none opts ui = roomInputEvent (some 0) opts ui ∧
    evaluate (jsOrZero none) opts = evaluate 0 opts ∧
    busInputEvent none opts bui = busInputEvent (some 0) opts bui :=
  ⟨rfl, rfl, rfl, rfl⟩

/-- Claim C8: a negative parsed requirement is accepted, not rejected or
clamped to 0; every candidate with non-negative numeric capacity is then
classified eligible, and the minimum-capacity candidate (earliest listed
on ties) is selected as BestFit, with surplus capacity minus count
strictly greater than its capacity. -/
theorem claim_C8_negative_accepted (n : Int) (opts : List Candidate)
    (hneg : n < 0) (hne : opts ≠ [])
    (hall : ∀ c ∈ opts, c.value ≠ "" ∧ ∃ v, c.capacity = some v ∧ 0 ≤ v) :
    jsOrZero (some n) = n ∧
    (∀ c ∈ opts, ∀ prev, updateOption n c prev = (false, fitsText c)) ∧
    (∃ l1 b l2 v, opts = l1 ++ b :: l2 ∧
      evaluate n opts = .BestFit b ∧ b.capacity = some v ∧
      v < v - n ∧
      (∀ c ∈ opts, ∀ w, c.capacity = some w → v ≤ w) ∧
      (∀ c ∈ l1, ∀ w, c.capacity = some w → v < w)) := by
  have htrack : ∀ c ∈ opts, Track n c = true := by
    intro c hc
    rcases hall c hc with ⟨hv, w, hcap, hw⟩
    exact (track_iff n c).mpr ⟨hv, w, hcap, by omega⟩
  refine ⟨rfl, ?_, ?_⟩
  · intro c hc prev
    rcases hall c hc with ⟨hv, w, hcap, hw⟩
    have hnl : ¬ w < n := by omega
    simp [updateOption, hv, hcap, jsLtCap, hnl]
  · obtain ⟨c0, hc0⟩ : ∃ c, c ∈ opts := by
      cases opts with
      | nil => exact absurd rfl hne
      | cons a l => exact ⟨a, by simp⟩
    rcases bestFit_spec n opts ⟨c0, hc0, htrack c0 hc0⟩ with
      ⟨l1, b, l2, v, hsplit, heval, hbv, hbc, hbr, hmin, hfirst⟩
    refine ⟨l1, b, l2, v, hsplit, heval, hbc, by omega, ?_, ?_⟩
    · intro c hc w hcap
      rcases hall c hc with ⟨hv', w', hcap', hw'⟩
      rw [hcap] at hcap'
      have hww : w = w' := Option.some.inj hcap'
      have := hmin c hc w hv' hcap (by omega)
      omega
    · intro c hc w hcap
      have hcopts : c ∈ opts := by
        rw [hsplit]
        exact List.mem_append.mpr (Or.inl hc)
      rcases hall c hcopts with ⟨hv', w', hcap', hw'⟩
      rw [hcap] at hcap'
      have hww : w = w' := Option.some.inj hcap'
      have := hfirst c hc w hv' hcap (by omega)
      omega

/-- Witness for claim C8: input -5 over the rooms B(50) then A(30). -/
theorem claim_C8_witness :
    ((-5 : Int) < 0 ∧ [roomB, roomA] ≠ [] ∧
      ∀ c ∈ [roomB, roomA], c.value ≠ "" ∧ ∃ v, c.capacity = some v ∧ (0 : Int) ≤ v) ∧
    (jsOrZero (some (-5)) = -5 ∧
     (∀ c ∈ [roomB, roomA], ∀ prev, updateOption (-5) c prev = (false, fitsText c)) ∧
     (∃ l1 b l2 v, [roomB, roomA] = l1 ++ b :: l2 ∧
       evaluate (-5) [roomB, roomA] = .BestFit b ∧ b.capacity = some v ∧
       v < v - (-5) ∧
       (∀ c ∈ [roomB, roomA], ∀ w, c.capacity = some w → v ≤ w) ∧
       (∀ c ∈ l1, ∀ w, c.capacity = some w → v < w))) := by
  have hall : ∀ c ∈ [roomB, roomA], c.value ≠ "" ∧ ∃ v, c.capacity = some v ∧ (0 : Int) ≤ v := by
    intro c hc
    rcases List.mem_cons.mp hc with h | h
    · subst h
      exact ⟨by decide, 50, rfl, by decide⟩
    · rw [List.mem_singleton.mp h]
      exact ⟨by decide, 30, rfl, by decide⟩
  exact ⟨⟨by decide, by decide, hall⟩,
    claim_C8_negative_accepted (-5) [roomB, roomA] (by decide) (by decide) hall⟩

theorem scan_of_evaluate_bestFit {r : Int} {opts : List Candidate} {b : Candidate}
    (h : evaluate r opts = .BestFit b) :
    (scanOptions r opts).bestFitOption = some b := by
  unfold evaluate at h
  cases hbb : (scanOptions r opts).bestFitOption with
  | none =>
      rw [hbb] at h
      by_cases h0 : 0 < r <;> simp [h0] at h
  | some b' =>
      rw [hbb] at h
      have hb' : b' = b := by simpa using h
      rw [hb']

/-- Counterexample to claim C5 as stated: with an empty option list, input
5 yields NoFit and disables submission; the following input 0 yields the
Empty result, yet submission stays disabled, while the claim requires
submission to be (re-)enabled after an Empty result. -/
theorem claim_C5_counterexample :
    busEvaluate (jsOrZero (some 5)) [] = .NoFit 5 ∧
    busEvaluate (jsOrZero (some 0)) [] = .Empty ∧
    (busInputEvent (some 5) [] busUI0).submitDisabled = true ∧
    (busInputEvent (some 0) [] (busInputEvent (some 5) [] busUI0)).submitDisabled = true := by
  decide

/-- Claim C5 (amended): after every bus evaluation, a NoFit result leaves
submission disabled and relabelled and a BestFit result leaves it
(re-)enabled and relabelled, but an Empty result leaves the submit state
unchanged — so submission can remain disabled after an Empty evaluation
that follows a NoFit one. -/
theorem claim_C5_submission_gate (inp : Option Int) (opts : List Candidate) (ui : BusUI) :
    (busInputEvent inp opts ui).submitDisabled =
      (match busEvaluate (jsOrZero inp) opts with
       | .NoFit _ => true
       | .BestFit _ => false
       | .Empty => ui.submitDisabled) ∧
    (busInputEvent inp opts ui).submitText =
      (match busEvaluate (jsOrZero inp) opts with
       | .NoFit _ => "Cannot Book: Too many passengers"
       | .BestFit _ => "Submit Request"
       | .Empty => ui.submitText) := by
  unfold busInputEvent busEvaluate
  by_cases hg : 0 < jsOrZero inp ∧ (busScan (jsOrZero inp) opts).validBusFound = false
  · simp [hg]
  · simp only [if_neg hg]
    cases hbf : (busScan (jsOrZero inp) opts).bestFit <;> simp [hbf]

/-- Claim C7: the recommender is deterministic and pure — the listener is
a function of the parsed input and the option list alone: applying it
twice with identical arguments equals applying it once (no hidden state
feeds back into the outcome), and the banner visibility it produces is
fully determined by the evaluation result of the same arguments. -/
theorem claim_C7_pure_idempotent (inp : Option Int) (opts : List Candidate) (ui : RoomUI) :
    roomInputEvent inp opts (roomInputEvent inp opts ui) = roomInputEvent inp opts ui ∧
    (roomInputEvent inp opts ui).recommendDisplay =
      (match evaluate (jsOrZero inp) opts with
       | .Empty => "none"
       | _ => "block") := by
  constructor
  · rw [roomInputEvent_eq inp opts ui]
    cases hb : (scanOptions (jsOrZero inp) opts).bestFitOption with
    | some b =>
        rw [roomInputEvent_eq]
        rw [hb]
        simp [zipWith_updateOption_idem]
    | none =>
        by_cases h0 : 0 < jsOrZero inp
        · rw [if_pos h0, roomInputEvent_eq, hb, if_pos h0]
          simp [zipWith_updateOption_idem]
        · rw [if_neg h0, roomInputEvent_eq, hb, if_neg h0]
          simp [zipWith_updateOption_idem]
  · rw [roomInputEvent_eq]
    unfold evaluate
    cases hb : (scanOptions (jsOrZero inp) opts).bestFitOption with
    | some b => rfl
    | none => by_cases h0 : 0 < jsOrZero inp <;> simp [h0]

/-- Claim C10: in the room variant a BestFit evaluation leaves the banner
className unchanged (only the NoFit branch assigns it), so in every event
sequence with a NoFit evaluation followed — possibly after further events
— by a BestFit evaluation, the BestFit banner is rendered with the danger
styling set earlier; the bus variant instead resets the class list at the
start of every evaluation, independently of the previous DOM state. -/
theorem claim_C10_stale_danger_class (opts : List Candidate) (ui0 : RoomUI)
    (pre mid : List (Option Int)) (i1 i2 : Option Int)
    (h1 : ∃ k, evaluate (jsOrZero i1) opts = .NoFit k)
    (h2 : ∃ b, evaluate (jsOrZero i2) opts = .BestFit b) :
    (∀ inp ui, (roomInputEvent inp opts ui).recommendClass =
      (match evaluate (jsOrZero inp) opts with
       | .NoFit _ => dangerClass
       | _ => ui.recommendClass)) ∧
    (roomEvents opts (pre ++ i1 :: (mid ++ [i2])) ui0).recommendClass = dangerClass ∧
    (roomEvents opts (pre ++ i1 :: (mid ++ [i2])) ui0).recommendDisplay = "block" ∧
    (∀ inp ui ui', (busInputEvent inp opts ui).suggestionClasses =
      (busInputEvent inp opts ui').suggestionClasses) := by
  rcases h1 with ⟨k, h1⟩
  rcases h2 with ⟨b, h2⟩
  have hlist : pre ++ i1 :: (mid ++ [i2]) = ((pre ++ [i1]) ++ mid) ++ [i2] := by simp
  have hstep : roomEvents opts (((pre ++ [i1]) ++ mid) ++ [i2]) ui0 =
      roomInputEvent i2 opts (roomEvents opts ((pre ++ [i1]) ++ mid) ui0) := by
    rw [roomEvents_append]
    rfl
  have hafter1 : (roomEvents opts (pre ++ [i1]) ui0).recommendClass = dangerClass := by
    rw [roomEvents_append]
    show (roomInputEvent i1 opts (roomEvents opts pre ui0)).recommendClass = dangerClass
    rw [roomClass_eq, h1]
  have hmid : (roomEvents opts ((pre ++ [i1]) ++ mid) ui0).recommendClass = dangerClass := by
    rw [roomEvents_append]
    exact roomEvents_danger_stable opts mid _ hafter1
  refine ⟨fun inp ui => roomClass_eq inp opts ui, ?_, ?_, ?_⟩
  · rw [hlist, hstep, roomClass_eq, h2]
    exact hmid
  · rw [hlist, hstep, roomInputEvent_eq, scan_of_evaluate_bestFit h2]
  · intro inp ui ui'
    rw [busClasses_eq, busClasses_eq]

/-- Witness for claim C10: room A(30), a NoFit event at input 50 followed
directly by a BestFit event at input 10. -/
theorem claim_C10_witness :
    ((∃ k, evaluate (jsOrZero (some 50)) [roomA] = .NoFit k) ∧
     (∃ b, evaluate (jsOrZero (some 10)) [roomA] = .BestFit b)) ∧
    ((∀ inp ui, (roomInputEvent inp [roomA] ui).recommendClass =
       (match evaluate (jsOrZero inp) [roomA] with
        | .NoFit _ => dangerClass
        | _ => ui.recommendClass)) ∧
     (roomEvents [roomA] [some 50, some 10] uiR0).recommendClass = dangerClass ∧
     (roomEvents [roomA] [some 50, some 10] uiR0).recommendDisplay = "block" ∧
     (∀ inp ui ui', (busInputEvent inp [roomA] ui).suggestionClasses =
       (busInputEvent inp [roomA] ui').suggestionClasses)) :=
  ⟨⟨⟨50, by decide⟩, ⟨roomA, by decide⟩⟩,
    claim_C10_stale_danger_class [roomA] uiR0 [] [] (some 50) (some 10)
      ⟨50, by decide⟩ ⟨roomA, by decide⟩⟩

end HallBooking
